import Mathlib

/-!
Shallow embedding of `neqo-client/src/main.rs`: the datagram pump
(`process_loop` / `process_loop_old`), the pre- and post-connect handlers
for both the framed (HTTP/3) and raw (HTTP/0.9) modes, and the two driving
sequences `client` and `old_client`.

The connection facade (`Http3Connection` / `Connection`) is an external
collaborator of this file; it is modelled as a structure of pure functions
over an abstract state type `σ` supplied as a parameter, so every theorem
quantifies over all facade behaviours.  Observable calls made by the client
code (socket sends, facade calls, console prints) are recorded in traces.
-/

namespace NeqoClient

/-- Session state as observed through the facade's `state()` call.  The
client code only ever pattern-matches `Connected` and `Closed(..)`. -/
inductive ConnState where
  | idle
  | connecting
  | connected
  | closing
  | closed (reason : Nat)
deriving DecidableEq, Repr

def ConnState.isClosed : ConnState → Bool
  | .closed _ => true
  | _ => false

def ConnState.isConnected : ConnState → Bool
  | .connected => true
  | _ => false

/-- A datagram: payload bytes plus source and destination addresses
(`Datagram::new(remote_addr, local_addr, &buf[..sz])`).  Addresses are
opaque; we model them as naturals. -/
structure Datagram where
  src : Nat
  dst : Nat
  payload : List Nat
deriving DecidableEq, Repr

/-- Events surfaced by the HTTP/3 facade (`Http3Event`).  The client matches
`HeaderReady`, `DataReadable` and a catch-all `_`; `other` stands for every
remaining variant. -/
inductive Http3Event where
  | headerReady (streamId : Nat)
  | dataReadable (streamId : Nat)
  | other (tag : Nat)
deriving DecidableEq, Repr

/-- Events surfaced by the raw transport facade (`ConnectionEvent`).  The
old-mode client matches `RecvStreamReadable`, `SendStreamWritable` and a
catch-all `_`. -/
inductive ConnectionEvent where
  | recvStreamReadable (streamId : Nat)
  | sendStreamWritable (streamId : Nat)
  | other (tag : Nat)
deriving DecidableEq, Repr

/-- Observable actions of a handler invocation: console prints and facade
calls, in program order. -/
inductive HAction where
  | warnUnexpectedStream (sid : Nat)
  | printHeaders (sid : Nat) (hdrs : List (String × String))
  | printRead (sid : Nat) (buffer : List Nat)
  | printFin (sid : Nat)
  | closeCall (err : Nat) (msg : String)
  | printWritable (sid : Nat)
  | printUnexpectedEvent (tag : Nat)
deriving DecidableEq, Repr

/-- Observable actions of one `process_loop` run, in program order. -/
inductive PumpAction where
  | input (ds : List Datagram)
  | handled (cont : Bool)
  | produced (outs : List Datagram)
  | sent (d : Datagram)
  | recvd (sz : Nat)
  | warnBig
  | recvErr
deriving DecidableEq, Repr

/-- Result of one blocking `socket.recv` call, supplied by an oracle. -/
inductive RecvOutcome where
  | err
  | ok (bytes : List Nat)
deriving DecidableEq, Repr

/-- How a `process_loop` run ends: a normal `return client.state()` (with
the final facade and handler states), `exit(1)` on a receive error, a panic
propagating out of the handler, or fuel exhaustion (the loop is still
spinning). -/
inductive PumpResult (σ η : Type) where
  | returned (st : ConnState) (s : σ) (h : η)
  | exited (code : Nat)
  | panicked
  | spun

/-- The facade operations `process_loop` itself needs: `process_input`,
`state` and `process_output`.  The `now()` argument is irrelevant to the
client logic and omitted. -/
structure PumpFacade (σ : Type) where
  processInput : σ → List Datagram → σ
  fstate : σ → ConnState
  processOutput : σ → σ × List Datagram

/-- A handler (`Handler::handle(&mut self, client) -> bool`), as a pure
function: given the handler state and facade state it returns the updated
handler state, updated facade state, the continue flag, and its observable
actions; `none` means the handler panicked (`expect`/`unwrap` failure). -/
def HandlerFun (σ η : Type) : Type :=
  η → σ → Option (η × σ × Bool × List HAction)

/-- The 2048-byte receive buffer of `process_loop`. -/
def recvBufLen : Nat := 2048

/-- Handling of one `socket.recv` success in `process_loop`: `sz` bytes
were received into the 2048-byte buffer.  If `sz` equals the full buffer
size, warn about possible truncation and queue nothing; if `sz` is
positive, queue one datagram `Datagram::new(remote_addr, local_addr,
&buf[..sz])`; a zero-length receive queues nothing.  Returns the input
batch of the next iteration together with the recorded actions. -/
def nextBatch (localAddr remoteAddr : Nat) (bytes : List Nat) :
    List Datagram × List PumpAction :=
  let sz := min bytes.length recvBufLen
  if sz = recvBufLen then
    ([], [.recvd sz, .warnBig])
  else if 0 < sz then
    ([⟨remoteAddr, localAddr, bytes.take sz⟩], [.recvd sz])
  else
    ([], [.recvd sz])

/-- Shallow embedding of `process_loop` (and the textually identical
`process_loop_old`).  `recvs k` is the outcome of the `k`-th blocking
receive; `fuel` bounds the number of iterations (the real loop can spin
forever).  Returns the result together with the trace of observable
actions. -/
def processLoop (F : PumpFacade σ) (handle : HandlerFun σ η)
    (recvs : Nat → RecvOutcome) (localAddr remoteAddr : Nat) :
    Nat → σ → η → List Datagram → Nat → PumpResult σ η × List PumpAction
  | 0, _, _, _, _ => (.spun, [])
  | fuel + 1, s, h, inD, k =>
    let s1 := F.processInput s inD
    if (F.fstate s1).isClosed then
      (.returned (F.fstate s1) s1 h, [.input inD])
    else
      match handle h s1 with
      | none => (.panicked, [.input inD])
      | some (h2, s2, cont, _prints) =>
        let s3 := (F.processOutput s2).1
        let outs := (F.processOutput s2).2
        let base : List PumpAction :=
          [.input inD, .handled cont, .produced outs] ++ outs.map .sent
        if cont = false then
          (.returned (F.fstate s3) s3 h2, base)
        else
          match recvs k with
          | .err => (.exited 1, base ++ [.recvErr])
          | .ok bytes =>
            let next := processLoop F handle recvs localAddr remoteAddr fuel
              s3 h2 (nextBatch localAddr remoteAddr bytes).1 (k + 1)
            (next.1, base ++ (nextBatch localAddr remoteAddr bytes).2 ++ next.2)

/-- The fixed close reason passed by both post-connect handlers:
`close(0, "kthxbye!")` resp. `close(0, 0, "kthxbye!")`. -/
def closeReason : String := "kthxbye!"

/-- The literal request line the raw-mode driving sequence writes:
`"GET /10\r\n"`. -/
def reqLine : String := "GET /10\r\n"

/-- The protocol label hard-wired into the raw-mode facade construction
(the literal one-element label list in `old_client`). -/
def http09 : String := "http/0.9"

/-- The default ALPN label of the command line (`default_value = "h3-20"`). -/
def h3Label : String := "h3-20"

/-- The UTF-8 validation automaton underlying Rust's `String::from_utf8`:
`pend` is the list of admissible ranges for the continuation bytes still
owed by the current multi-byte sequence (the first continuation byte of a
sequence has a restricted range after the lead bytes `E0`, `ED`, `F0` and
`F4`, which excludes overlong encodings, surrogates and code points above
`U+10FFFF`). -/
def utf8Run : List (Nat × Nat) → List Nat → Bool
  | [], [] => true
  | _ :: _, [] => false
  | [], b :: rest =>
    if b < 0x80 then utf8Run [] rest
    else if b < 0xC2 then false
    else if b < 0xE0 then utf8Run [(0x80, 0xBF)] rest
    else if b < 0xF0 then
      utf8Run [(if b = 0xE0 then 0xA0 else 0x80,
                if b = 0xED then 0x9F else 0xBF), (0x80, 0xBF)] rest
    else if b < 0xF5 then
      utf8Run [(if b = 0xF0 then 0x90 else 0x80,
                if b = 0xF4 then 0x8F else 0xBF),
               (0x80, 0xBF), (0x80, 0xBF)] rest
    else false
  | (lo, hi) :: pend, b :: rest =>
    lo ≤ b && b ≤ hi && utf8Run pend rest

/-- UTF-8 well-formedness of a byte sequence: the condition under which
Rust's `String::from_utf8` succeeds. -/
def utf8WellFormed (l : List Nat) : Bool := utf8Run [] l

/-- The fixed read buffer of the post-connect handlers: `vec![0; 4000]`. -/
def readBufLen : Nat := 4000

/-- The mode-specific facade operations the framed-mode (HTTP/3) handler
and driving sequence use, beyond the pump operations.  `readData s sid`
models `read_data(stream_id, &mut data)`: `none` is an `Err` result
(which the handler `expect`s), `some (s', bytes, fin)` yields the bytes
written into the front of the buffer and the fin flag.  `fetch` returns
the new request stream's identifier, `none` being an `Err` (unwrapped by
the driving sequence). -/
structure H3Facade (σ : Type) extends PumpFacade σ where
  processHttp3 : σ → σ
  events : σ → σ × List Http3Event
  getHeaders : σ → Nat → List (String × String)
  readData : σ → Nat → Option (σ × List Nat × Bool)
  close : σ → Nat → String → σ
  fetch : σ → String → String → String → String → List (String × String) →
    Option (σ × Nat)

/-- State of `PostConnectHandler`: the set of stream identifiers of
interest (`streams: HashSet<u64>`), modelled as a list queried with
`contains`. -/
structure PostConnectHandler where
  streams : List Nat
deriving DecidableEq, Repr

/-- `PostConnectHandler::default()`: the empty interest set. -/
def PostConnectHandler.default : PostConnectHandler := ⟨[]⟩

/-- The buffer contents after `read_data` wrote `bytes` into the front of
the 4000-byte zero-initialized read buffer. -/
def filledBuffer (bytes : List Nat) : List Nat :=
  bytes.take readBufLen ++ List.replicate (readBufLen - (bytes.take readBufLen).length) 0

/-- The event-dispatch loop of `PostConnectHandler::handle` (framed mode):
`for event in client.events() { match event { ... } }`, over the already
drained event list.  `none` models a panic (`expect` on a failed read, or
`unwrap` on `String::from_utf8` of the full buffer). -/
def handleH3Events (F : H3Facade σ) (streams : List Nat) :
    List Http3Event → σ → Option (σ × Bool × List HAction)
  | [], s => some (s, true, [])
  | .headerReady sid :: rest, s =>
    if streams.contains sid = false then
      some (s, false, [.warnUnexpectedStream sid])
    else
      let hdrs := F.getHeaders s sid
      match handleH3Events F streams rest s with
      | none => none
      | some (s', c, acts) => some (s', c, .printHeaders sid hdrs :: acts)
  | .dataReadable sid :: rest, s =>
    if streams.contains sid = false then
      some (s, false, [.warnUnexpectedStream sid])
    else
      match F.readData s sid with
      | none => none
      | some (s', bytes, fin) =>
        let buffer := filledBuffer bytes
        if utf8WellFormed buffer = false then none
        else if fin then
          some (F.close s' 0 closeReason, false,
            [.printRead sid buffer, .printFin sid, .closeCall 0 closeReason])
        else
          match handleH3Events F streams rest s' with
          | none => none
          | some (s'', c, acts) => some (s'', c, .printRead sid buffer :: acts)
  | .other _ :: rest, s => handleH3Events F streams rest s

/-- `PostConnectHandler::handle`: run the facade's HTTP/3 processing step,
drain the events and dispatch each.  The handler's own state (`streams`)
is never modified. -/
def PostConnectHandler.handle (F : H3Facade σ) :
    HandlerFun σ PostConnectHandler := fun h s =>
  let s1 := F.processHttp3 s
  let (s2, evs) := F.events s1
  match handleH3Events F h.streams evs s2 with
  | none => none
  | some (s', c, acts) => some (h, s', c, acts)

/-- `PreConnectHandler::handle` (both modes): continue while the state is
not `Connected`; no events are read, no side effects. -/
def preConnectHandle (F : PumpFacade σ) : HandlerFun σ Unit := fun _ s =>
  some ((), s, !(F.fstate s).isConnected, [])

/-- The mode-specific facade operations of the raw (HTTP/0.9) mode.
`streamRecv` models `stream_recv(stream_id, &mut data)`; `streamCreate`
models `stream_create(StreamType::BiDi)`; `close` takes the extra frame
type argument (`close(0, 0, "kthxbye!")` at the call site). -/
structure TFacade (σ : Type) extends PumpFacade σ where
  events : σ → σ × List ConnectionEvent
  streamRecv : σ → Nat → Option (σ × List Nat × Bool)
  close : σ → Nat → Nat → String → σ
  streamCreate : σ → Option (σ × Nat)
  streamSend : σ → Nat → String → Option σ

/-- State of `PostConnectHandlerOld`: the interest set. -/
structure PostConnectHandlerOld where
  streams : List Nat
deriving DecidableEq, Repr

/-- The event-dispatch loop of `PostConnectHandlerOld::handle` (raw mode):
`RecvStreamReadable` is handled like the framed data-readable case,
`SendStreamWritable` is printed informationally, and any other event is
printed as unexpected and otherwise ignored. -/
def handleOldEvents (F : TFacade σ) (streams : List Nat) :
    List ConnectionEvent → σ → Option (σ × Bool × List HAction)
  | [], s => some (s, true, [])
  | .recvStreamReadable sid :: rest, s =>
    if streams.contains sid = false then
      some (s, false, [.warnUnexpectedStream sid])
    else
      match F.streamRecv s sid with
      | none => none
      | some (s', bytes, fin) =>
        let buffer := filledBuffer bytes
        if utf8WellFormed buffer = false then none
        else if fin then
          some (F.close s' 0 0 closeReason, false,
            [.printRead sid buffer, .printFin sid, .closeCall 0 closeReason])
        else
          match handleOldEvents F streams rest s' with
          | none => none
          | some (s'', c, acts) => some (s'', c, .printRead sid buffer :: acts)
  | .sendStreamWritable sid :: rest, s =>
    match handleOldEvents F streams rest s with
    | none => none
    | some (s', c, acts) => some (s', c, .printWritable sid :: acts)
  | .other tag :: rest, s =>
    match handleOldEvents F streams rest s with
    | none => none
    | some (s', c, acts) => some (s', c, .printUnexpectedEvent tag :: acts)

/-- The console line the raw-mode handler emits for each event kind: the
warning for a readable event on a foreign stream, the informational line
for `SendStreamWritable`, and the unexpected-event dump for everything
else. -/
def rawEventPrint : ConnectionEvent → HAction
  | .recvStreamReadable sid => .warnUnexpectedStream sid
  | .sendStreamWritable sid => .printWritable sid
  | .other tag => .printUnexpectedEvent tag

/-- `PostConnectHandlerOld::handle`: drain the events and dispatch each;
the handler's own state is never modified. -/
def PostConnectHandlerOld.handle (F : TFacade σ) :
    HandlerFun σ PostConnectHandlerOld := fun h s =>
  let (s1, evs) := F.events s
  match handleOldEvents F h.streams evs s1 with
  | none => none
  | some (s', c, acts) => some (h, s', c, acts)

/-- The configuration fields the driving sequences use (from `Args` and
the parsed URL). -/
structure ClientArgs where
  alpn : List String
  urlHost : String
  urlScheme : String
  urlPath : String
  method : String
  headers : List (String × String)
deriving DecidableEq, Repr

/-- Observable steps of a driving sequence (`client` / `old_client`), in
program order. -/
inductive DriveAction where
  | connect (host : String) (alpn : List String)
  | preLoopReturned (st : ConnState)
  | fetchCall (method scheme host path : String) (hdrs : List (String × String))
  | streamCreateCall
  | streamSendCall (sid : Nat) (req : String)
  | postLoopRun (interest : List Nat)
deriving DecidableEq, Repr

/-- How a driving sequence ends. -/
inductive DriveResult where
  | finished
  | exited (code : Nat)
  | panicked
  | spun
deriving DecidableEq, Repr

/-- Collapse a pump result into a drive result (the driving sequences
discard the returned state). -/
def PumpResult.toDrive : PumpResult σ η → DriveResult
  | .returned _ _ _ => .finished
  | .exited c => .exited c
  | .panicked => .panicked
  | .spun => .spun

/-- Shallow embedding of `client` (framed mode): construct the facade with
`args.alpn`, run the pre-connect pump, then — without inspecting why that
pump returned — call `fetch` and unwrap it, insert the returned stream
identifier into a fresh interest set, and run the post-connect pump.
`mk host alpn` models `Connection::new_client` composed with
`Http3Connection::new` (`none` is an `Err`, `expect`ed at the call site). -/
def clientRun (mk : String → List String → Option σ) (F : H3Facade σ)
    (recvs : Nat → RecvOutcome) (localAddr remoteAddr : Nat) (fuel : Nat)
    (args : ClientArgs) : DriveResult × List DriveAction :=
  let a0 := DriveAction.connect args.urlHost args.alpn
  match mk args.urlHost args.alpn with
  | none => (.panicked, [a0])
  | some s0 =>
    match (processLoop F.toPumpFacade (preConnectHandle F.toPumpFacade)
        recvs localAddr remoteAddr fuel s0 () [] 0).1 with
    | .exited c => (.exited c, [a0])
    | .panicked => (.panicked, [a0])
    | .spun => (.spun, [a0])
    | .returned st s1 _ =>
      let aFetch := DriveAction.fetchCall args.method args.urlScheme args.urlHost
        args.urlPath args.headers
      match F.fetch s1 args.method args.urlScheme args.urlHost args.urlPath
          args.headers with
      | none => (.panicked, [a0, .preLoopReturned st, aFetch])
      | some (s2, sid) =>
        let h2 : PostConnectHandler := ⟨PostConnectHandler.default.streams ++ [sid]⟩
        let r2 := (processLoop F.toPumpFacade (PostConnectHandler.handle F)
          recvs localAddr remoteAddr fuel s2 h2 [] 0).1
        (r2.toDrive,
          [a0, .preLoopReturned st, aFetch, .postLoopRun h2.streams])

/-- Shallow embedding of `old::old_client` (raw mode): construct the facade
with the literal one-element label list — `args.alpn` is only
debug-printed — run the pre-connect pump, then unconditionally create one
bidirectional stream, send the literal request line `"GET /10\r\n"`, insert
the stream identifier into a fresh interest set and run the post-connect
pump. -/
def oldClientRun (mk : String → List String → Option σ) (F : TFacade σ)
    (recvs : Nat → RecvOutcome) (localAddr remoteAddr : Nat) (fuel : Nat)
    (args : ClientArgs) : DriveResult × List DriveAction :=
  let a0 := DriveAction.connect args.urlHost [http09]
  match mk args.urlHost [http09] with
  | none => (.panicked, [a0])
  | some s0 =>
    match (processLoop F.toPumpFacade (preConnectHandle F.toPumpFacade)
        recvs localAddr remoteAddr fuel s0 () [] 0).1 with
    | .exited c => (.exited c, [a0])
    | .panicked => (.panicked, [a0])
    | .spun => (.spun, [a0])
    | .returned st s1 _ =>
      match F.streamCreate s1 with
      | none => (.panicked, [a0, .preLoopReturned st, .streamCreateCall])
      | some (s2, sid) =>
        match F.streamSend s2 sid reqLine with
        | none =>
          (.panicked, [a0, .preLoopReturned st, .streamCreateCall,
            .streamSendCall sid reqLine])
        | some s3 =>
          let h2 : PostConnectHandlerOld := ⟨[sid]⟩
          let r2 := (processLoop F.toPumpFacade (PostConnectHandlerOld.handle F)
            recvs localAddr remoteAddr fuel s3 h2 [] 0).1
          (r2.toDrive,
            [a0, .preLoopReturned st, .streamCreateCall,
              .streamSendCall sid reqLine, .postLoopRun h2.streams])

/-- Trace discipline of the pump: every handler invocation is immediately
followed by a `process_output` pull (regardless of the continue flag the
handler returned), and every pull of `outs` is immediately followed by
exactly the socket sends of `outs`, in order — so no receive (and nothing
else) is interposed between producing outbound datagrams and flushing
them. -/
def flushedBeforeRecv : List PumpAction → Bool
  | [] => true
  | .handled _ :: .produced outs :: rest =>
    decide (rest.take outs.length = outs.map .sent) &&
      flushedBeforeRecv (rest.drop outs.length)
  | .handled _ :: _ => false
  | .produced outs :: rest =>
    decide (rest.take outs.length = outs.map .sent) &&
      flushedBeforeRecv (rest.drop outs.length)
  | .input _ :: rest => flushedBeforeRecv rest
  | .sent _ :: rest => flushedBeforeRecv rest
  | .recvd _ :: rest => flushedBeforeRecv rest
  | .warnBig :: rest => flushedBeforeRecv rest
  | .recvErr :: rest => flushedBeforeRecv rest
termination_by t => t.length
decreasing_by
  all_goals simp [List.length_drop]
  all_goals omega

/-! ### Concrete facade instances used to exercise the definitions -/

/-- A concrete HTTP/3 facade over `σ := Nat` whose event queue and
`read_data` behaviour are fixed by parameters. -/
def fixH3 (evs : List Http3Event) (rd : Option (List Nat × Bool)) : H3Facade Nat where
  processInput := fun s _ => s
  fstate := fun _ => .connected
  processOutput := fun s => (s, [])
  processHttp3 := fun s => s
  events := fun s => (s, evs)
  getHeaders := fun _ _ => []
  readData := fun s _ => rd.map fun bf => (s + 1, bf.1, bf.2)
  close := fun s _ _ => s + 100
  fetch := fun s _ _ _ _ _ => some (s, 7)

/-- A concrete raw-mode facade over `σ := Nat` with a fixed event queue. -/
def fixOld (evs : List ConnectionEvent) : TFacade Nat where
  processInput := fun s _ => s
  fstate := fun _ => .connected
  processOutput := fun s => (s, [])
  events := fun s => (s, evs)
  streamRecv := fun s _ => some (s + 1, [], true)
  close := fun s _ _ _ => s + 100
  streamCreate := fun s => some (s, 2)
  streamSend := fun s _ _ => some s

/-- A concrete pump facade over `σ := Nat`: `process_input` bumps a
counter, the state is `Closed` once the counter reaches `closeAt`, and
every `process_output` emits one datagram. -/
def fixPump (closeAt : Nat) : PumpFacade Nat where
  processInput := fun s _ => s + 1
  fstate := fun s => if closeAt ≤ s then .closed 9 else .connecting
  processOutput := fun s => (s, [⟨1, 2, [s]⟩])

/-- A facade whose handshake fails at once: every state query reports
`Closed(0)`, yet `fetch` still hands out stream identifier `0`. -/
def closedH3 : H3Facade Nat where
  processInput := fun s _ => s
  fstate := fun _ => .closed 0
  processOutput := fun s => (s, [])
  processHttp3 := fun s => s
  events := fun s => (s, [])
  getHeaders := fun _ _ => []
  readData := fun s _ => some (s, [], true)
  close := fun s _ _ => s
  fetch := fun s _ _ _ _ _ => some (s, 0)

/-- Arguments used by the concrete driving-sequence runs. -/
def fixArgs : ClientArgs where
  alpn := [h3Label]
  urlHost := "example.com"
  urlScheme := "https"
  urlPath := "/"
  method := "GET"
  headers := []

/-- A receive oracle that always hands back a three-byte datagram. -/
def fixRecvs : Nat → RecvOutcome := fun _ => .ok [1, 2, 3]

/-- A receive oracle that always fills the whole 2048-byte buffer. -/
def bigRecvs : Nat → RecvOutcome := fun _ => .ok (List.replicate 2048 0)

/-- A facade constructor that always succeeds with initial state `0`. -/
def fixMk : String → List String → Option Nat := fun _ _ => some 0

/-! ### Helper lemmas -/

theorem flushedBeforeRecv_input (ds : List Datagram) (t : List PumpAction) :
    flushedBeforeRecv (.input ds :: t) = flushedBeforeRecv t := by
  rw [flushedBeforeRecv]

theorem flushedBeforeRecv_recvd (sz : Nat) (t : List PumpAction) :
    flushedBeforeRecv (.recvd sz :: t) = flushedBeforeRecv t := by
  rw [flushedBeforeRecv]

theorem flushedBeforeRecv_warnBig (t : List PumpAction) :
    flushedBeforeRecv (.warnBig :: t) = flushedBeforeRecv t := by
  rw [flushedBeforeRecv]

theorem flushedBeforeRecv_recvErr (t : List PumpAction) :
    flushedBeforeRecv (.recvErr :: t) = flushedBeforeRecv t := by
  rw [flushedBeforeRecv]

theorem flushedBeforeRecv_block (inD : List Datagram) (c : Bool)
    (outs : List Datagram) (t : List PumpAction) :
    flushedBeforeRecv
        (.input inD :: .handled c :: .produced outs :: (outs.map .sent ++ t)) =
      flushedBeforeRecv t := by
  rw [flushedBeforeRecv, flushedBeforeRecv]
  have hlen : (outs.map PumpAction.sent).length = outs.length := List.length_map _ _
  rw [List.take_left' hlen, List.drop_left' hlen]
  simp

theorem flushedBeforeRecv_finalBlock (inD : List Datagram) (c : Bool)
    (outs : List Datagram) :
    flushedBeforeRecv
        (.input inD :: .handled c :: .produced outs :: outs.map .sent) = true := by
  have h := flushedBeforeRecv_block inD c outs []
  rw [List.append_nil] at h
  rw [h, flushedBeforeRecv]

theorem flushedBeforeRecv_nextBatch (la ra : Nat) (bytes : List Nat)
    (t : List PumpAction) :
    flushedBeforeRecv ((nextBatch la ra bytes).2 ++ t) = flushedBeforeRecv t := by
  simp only [nextBatch]
  by_cases h1 : min bytes.length recvBufLen = recvBufLen
  · rw [if_pos h1]
    show flushedBeforeRecv (.recvd _ :: .warnBig :: t) = _
    rw [flushedBeforeRecv_recvd, flushedBeforeRecv_warnBig]
  · rw [if_neg h1]
    by_cases h2 : 0 < min bytes.length recvBufLen
    · rw [if_pos h2]
      show flushedBeforeRecv (.recvd _ :: t) = _
      rw [flushedBeforeRecv_recvd]
    · rw [if_neg h2]
      show flushedBeforeRecv (.recvd _ :: t) = _
      rw [flushedBeforeRecv_recvd]

/-- C2: For every pump iteration, all outbound datagrams produced by the
facade in that iteration are pulled and transmitted via the socket
regardless of the handler's continue signal, and this transmission happens
before the pump issues its next blocking receive: the trace of every
`process_loop` run satisfies the `flushedBeforeRecv` discipline, for every
facade, handler, receive oracle, fuel and starting state. -/
theorem pump_flushes_output_before_recv {σ η : Type} (F : PumpFacade σ)
    (handle : HandlerFun σ η) (recvs : Nat → RecvOutcome) (la ra : Nat)
    (fuel : Nat) (s : σ) (h : η) (inD : List Datagram) (k : Nat) :
    flushedBeforeRecv
      (processLoop F handle recvs la ra fuel s h inD k).2 = true := by
  induction fuel generalizing s h inD k with
  | zero =>
    show flushedBeforeRecv [] = true
    rw [flushedBeforeRecv]
  | succ n ih =>
    simp only [processLoop]
    cases hcl : (F.fstate (F.processInput s inD)).isClosed with
    | true =>
      show flushedBeforeRecv [.input inD] = true
      rw [flushedBeforeRecv_input, flushedBeforeRecv]
    | false =>
      rcases hh : handle h (F.processInput s inD) with _ | ⟨h2, s2, cont, prints⟩
      · show flushedBeforeRecv [.input inD] = true
        rw [flushedBeforeRecv_input, flushedBeforeRecv]
      · cases cont with
        | false =>
          show flushedBeforeRecv
            (.input inD :: .handled false :: .produced (F.processOutput s2).2 ::
              (F.processOutput s2).2.map .sent) = true
          exact flushedBeforeRecv_finalBlock inD false (F.processOutput s2).2
        | true =>
          rcases hr : recvs k with _ | bytes
          · show flushedBeforeRecv
              (.input inD :: .handled true :: .produced (F.processOutput s2).2 ::
                ((F.processOutput s2).2.map .sent ++ [.recvErr])) = true
            rw [flushedBeforeRecv_block, flushedBeforeRecv_recvErr,
              flushedBeforeRecv]
          · show flushedBeforeRecv
              (.input inD :: .handled true :: .produced (F.processOutput s2).2 ::
                (((F.processOutput s2).2.map .sent ++ (nextBatch la ra bytes).2) ++
                  (processLoop F handle recvs la ra n (F.processOutput s2).1 h2
                    (nextBatch la ra bytes).1 (k + 1)).2)) = true
            rw [List.append_assoc, flushedBeforeRecv_block,
              flushedBeforeRecv_nextBatch]
            exact ih _ h2 _ (k + 1)

theorem processLoop_returned_closed_or_stop {σ η : Type} (F : PumpFacade σ)
    (handle : HandlerFun σ η) (recvs : Nat → RecvOutcome) (la ra : Nat)
    (fuel : Nat) (s : σ) (h : η) (inD : List Datagram) (k : Nat)
    (st : ConnState) (s' : σ) (h' : η) (tr : List PumpAction)
    (heq : processLoop F handle recvs la ra fuel s h inD k =
      (.returned st s' h', tr)) :
    st.isClosed = true ∨ PumpAction.handled false ∈ tr := by
  induction fuel generalizing s h inD k st s' h' tr with
  | zero =>
    rw [processLoop] at heq
    simp at heq
  | succ n ih =>
    simp only [processLoop] at heq
    cases hcl : (F.fstate (F.processInput s inD)).isClosed with
    | true =>
      rw [hcl] at heq
      simp only [if_true] at heq
      simp only [Prod.mk.injEq, PumpResult.returned.injEq] at heq
      obtain ⟨⟨hst, -, -⟩, -⟩ := heq
      exact Or.inl (hst ▸ hcl)
    | false =>
      rw [hcl] at heq
      simp only [Bool.false_eq_true, if_false] at heq
      rcases hh : handle h (F.processInput s inD) with _ | ⟨h2, s2, cont, prints⟩ <;>
        rw [hh] at heq
      · simp at heq
      · cases cont with
        | false =>
          simp only [if_true, Prod.mk.injEq] at heq
          obtain ⟨-, htr⟩ := heq
          refine Or.inr ?_
          rw [← htr]
          simp
        | true =>
          simp only [Bool.true_eq_false, if_false] at heq
          rcases hr : recvs k with _ | bytes <;> rw [hr] at heq
          · simp at heq
          · simp only [Prod.mk.injEq] at heq
            obtain ⟨h1, htr⟩ := heq
            have hcall : processLoop F handle recvs la ra n
                ((F.processOutput s2).1) h2 (nextBatch la ra bytes).1 (k + 1) =
                (.returned st s' h',
                  (processLoop F handle recvs la ra n ((F.processOutput s2).1) h2
                    (nextBatch la ra bytes).1 (k + 1)).2) := by
              rw [← h1]
            rcases ih _ h2 _ (k + 1) st s' h' _ hcall with hc | hm
            · exact Or.inl hc
            · refine Or.inr ?_
              rw [← htr]
              exact List.mem_append_right _ hm

/-- C3: In every pump iteration, if after feeding the buffered inbound
datagrams the facade's state is `Closed`, the pump returns that state
immediately — the iteration's trace is just the input action, so the
handler is not invoked and no output is pulled, sent or received — and
(second conjunct) a normal `returned` result always carries either a
`Closed` state or a `handled false` action in its trace: reaching `Closed`
after input processing is the only way the pump terminates without the
handler returning stop. -/
theorem pump_closed_check_first {σ η : Type} (F : PumpFacade σ)
    (handle : HandlerFun σ η) (recvs : Nat → RecvOutcome) (la ra : Nat) :
    (∀ fuel s h inD k,
      (F.fstate (F.processInput s inD)).isClosed = true →
      processLoop F handle recvs la ra (fuel + 1) s h inD k =
        (.returned (F.fstate (F.processInput s inD)) (F.processInput s inD) h,
          [.input inD])) ∧
    (∀ fuel s h inD k st s' h' tr,
      processLoop F handle recvs la ra fuel s h inD k = (.returned st s' h', tr) →
      st.isClosed = true ∨ PumpAction.handled false ∈ tr) := by
  constructor
  · intro fuel s h inD k hcl
    simp only [processLoop]
    rw [hcl]
    simp
  · intro fuel s h inD k st s' h' tr heq
    exact processLoop_returned_closed_or_stop F handle recvs la ra fuel
      s h inD k st s' h' tr heq

theorem pump_closed_check_first_witness :
    processLoop (fixPump 0) (preConnectHandle (fixPump 0)) fixRecvs 0 0 1
        0 () [] 0 =
      (.returned (.closed 9) 1 (), [.input []]) := by
  have h := (pump_closed_check_first (fixPump 0) (preConnectHandle (fixPump 0))
    fixRecvs 0 0).1 0 0 () [] 0 (by decide)
  exact h

/-- C6: When the pump's blocking receive returns at least the full
2048-byte buffer size, the received bytes are discarded with a warning and
nothing is queued for the next input batch; a zero-length receive is
likewise not queued (without a warning); and in both cases — indeed after
every successful receive — the loop continues with the next iteration
rather than terminating. -/
theorem pump_discards_oversized_and_empty_receives {σ η : Type}
    (F : PumpFacade σ) (handle : HandlerFun σ η) (recvs : Nat → RecvOutcome)
    (la ra : Nat) (fuel : Nat) (s : σ) (h : η) (inD : List Datagram) (k : Nat)
    (h2 : η) (s2 : σ) (prints : List HAction) (bytes : List Nat)
    (hcl : (F.fstate (F.processInput s inD)).isClosed = false)
    (hh : handle h (F.processInput s inD) = some (h2, s2, true, prints))
    (hr : recvs k = .ok bytes) :
    (recvBufLen ≤ bytes.length →
      nextBatch la ra bytes = ([], [.recvd recvBufLen, .warnBig])) ∧
    (bytes = [] → nextBatch la ra bytes = ([], [.recvd 0])) ∧
    processLoop F handle recvs la ra (fuel + 1) s h inD k =
      ((processLoop F handle recvs la ra fuel (F.processOutput s2).1 h2
          (nextBatch la ra bytes).1 (k + 1)).1,
        [.input inD, .handled true, .produced (F.processOutput s2).2] ++
            (F.processOutput s2).2.map .sent ++ (nextBatch la ra bytes).2 ++
          (processLoop F handle recvs la ra fuel (F.processOutput s2).1 h2
            (nextBatch la ra bytes).1 (k + 1)).2) := by
  refine ⟨?_, ?_, ?_⟩
  · intro hlen
    have hmin : min bytes.length recvBufLen = recvBufLen := Nat.min_eq_right hlen
    simp only [nextBatch]
    rw [hmin, if_pos rfl]
  · intro hnil
    subst hnil
    simp [nextBatch, recvBufLen]
  · simp only [processLoop]
    rw [hcl]
    simp only [Bool.false_eq_true, if_false]
    rw [hh]
    simp only [Bool.true_eq_false, if_false]
    rw [hr]

theorem pump_discards_oversized_and_empty_receives_witness :
    nextBatch 0 0 (List.replicate 2048 0) =
      ([], [.recvd recvBufLen, .warnBig]) := by
  exact (pump_discards_oversized_and_empty_receives (fixPump 10)
    (preConnectHandle (fixPump 10)) bigRecvs 0 0 0 0 () [] 0 () 1 []
    (List.replicate 2048 0) (by decide) rfl rfl).1
    (by rw [List.length_replicate]; decide)

theorem filledBuffer_length (bytes : List Nat) :
    (filledBuffer bytes).length = readBufLen := by
  simp [filledBuffer]

theorem utf8WellFormed_cons_ascii (b : Nat) (l : List Nat) (hb : b < 0x80) :
    utf8WellFormed (b :: l) = utf8WellFormed l := by
  show utf8Run [] (b :: l) = utf8Run [] l
  rw [utf8Run, if_pos hb]

theorem utf8WellFormed_replicate_zero (n : Nat) :
    utf8WellFormed (List.replicate n 0) = true := by
  induction n with
  | zero => rfl
  | succ n ih =>
    rw [List.replicate_succ, utf8WellFormed_cons_ascii 0 _ (by decide)]
    exact ih

theorem utf8WellFormed_filledBuffer_nil :
    utf8WellFormed (filledBuffer []) = true := by
  have hfb : filledBuffer [] = List.replicate readBufLen 0 := rfl
  rw [hfb]
  exact utf8WellFormed_replicate_zero _

/-- C5: For every header-ready or data-readable event at the front of the
drained event queue whose stream identifier is not in the Interest Set, the
framed-mode post-connect handler prints exactly the warning line and
returns stop: the action list is only the warning, so no close call is
issued and no headers or data are read for that stream. -/
theorem post_handler_rejects_foreign_stream {σ : Type} (F : H3Facade σ)
    (h : PostConnectHandler) (s : σ) (sid : Nat) (ev : Http3Event)
    (rest : List Http3Event)
    (hmem : h.streams.contains sid = false)
    (hev : ev = .headerReady sid ∨ ev = .dataReadable sid)
    (hevs : (F.events (F.processHttp3 s)).2 = ev :: rest) :
    PostConnectHandler.handle F h s =
      some (h, (F.events (F.processHttp3 s)).1, false,
        [.warnUnexpectedStream sid]) := by
  simp only [PostConnectHandler.handle]
  simp at hmem
  rcases hev with hE | hE <;> subst hE <;>
    simp [handleH3Events, hevs, hmem]

theorem post_handler_rejects_foreign_stream_witness :
    PostConnectHandler.handle (fixH3 [Http3Event.headerReady 3] none)
        PostConnectHandler.default 0 =
      some (PostConnectHandler.default, 0, false, [.warnUnexpectedStream 3]) := by
  exact post_handler_rejects_foreign_stream
    (fixH3 [Http3Event.headerReady 3] none) PostConnectHandler.default 0 3
    (Http3Event.headerReady 3) [] rfl (Or.inl rfl) rfl

/-- C4: When the framed-mode post-connect handler processes a
data-readable event on a stream in the Interest Set and the read reports
the final-data flag, the handler prints the completion marker exactly
once, issues exactly one close call with the fixed application error code
0 and the fixed reason string, and returns stop. -/
theorem post_handler_fin_closes_once {σ : Type} (F : H3Facade σ)
    (h : PostConnectHandler) (s : σ) (sid : Nat) (rest : List Http3Event)
    (s' : σ) (bytes : List Nat)
    (hmem : h.streams.contains sid = true)
    (hevs : (F.events (F.processHttp3 s)).2 = .dataReadable sid :: rest)
    (hread : F.readData (F.events (F.processHttp3 s)).1 sid =
      some (s', bytes, true))
    (hval : utf8WellFormed (filledBuffer bytes) = true) :
    PostConnectHandler.handle F h s =
      some (h, F.close s' 0 closeReason, false,
        [.printRead sid (filledBuffer bytes), .printFin sid,
          .closeCall 0 closeReason]) ∧
    List.count (HAction.printFin sid)
      [.printRead sid (filledBuffer bytes), .printFin sid,
        .closeCall 0 closeReason] = 1 ∧
    List.count (HAction.closeCall 0 closeReason)
      [.printRead sid (filledBuffer bytes), .printFin sid,
        .closeCall 0 closeReason] = 1 := by
  refine ⟨?_, by simp [List.count_cons], by simp [List.count_cons]⟩
  simp only [PostConnectHandler.handle]
  simp at hmem
  simp [handleH3Events, hevs, hmem, hread, hval]

theorem post_handler_fin_closes_once_witness :
    PostConnectHandler.handle (fixH3 [Http3Event.dataReadable 3]
        (some ([], true))) ⟨[3]⟩ 0 =
      some (⟨[3]⟩, 101, false,
        [.printRead 3 (filledBuffer []), .printFin 3,
          .closeCall 0 closeReason]) := by
  exact (post_handler_fin_closes_once
    (fixH3 [Http3Event.dataReadable 3] (some ([], true))) ⟨[3]⟩ 0 3 [] 1 []
    rfl rfl rfl utf8WellFormed_filledBuffer_nil).1

/-- C9: On a data-readable event for a stream in the Interest Set, the
handler passes the entire fixed 4000-byte buffer — the read bytes padded
with the remaining zero initialisers, `(filledBuffer bytes).length =
readBufLen` — to the UTF-8 decoding and printing, not only the bytes
returned by the read; if that whole buffer is not valid UTF-8 the handler
panics (result `none`) instead of returning stop, and if it is valid the
printed payload is the whole buffer. -/
theorem post_handler_prints_whole_buffer {σ : Type} (F : H3Facade σ)
    (h : PostConnectHandler) (s : σ) (sid : Nat) (rest : List Http3Event)
    (s' : σ) (bytes : List Nat) (fin : Bool)
    (hmem : h.streams.contains sid = true)
    (hevs : (F.events (F.processHttp3 s)).2 = .dataReadable sid :: rest)
    (hread : F.readData (F.events (F.processHttp3 s)).1 sid =
      some (s', bytes, fin)) :
    (filledBuffer bytes).length = readBufLen ∧
    (utf8WellFormed (filledBuffer bytes) = false →
      PostConnectHandler.handle F h s = none) ∧
    (utf8WellFormed (filledBuffer bytes) = true → fin = true →
      PostConnectHandler.handle F h s =
        some (h, F.close s' 0 closeReason, false,
          [.printRead sid (filledBuffer bytes), .printFin sid,
            .closeCall 0 closeReason])) := by
  refine ⟨filledBuffer_length bytes, ?_, ?_⟩
  · intro hbad
    simp only [PostConnectHandler.handle]
    simp at hmem
    simp [handleH3Events, hevs, hmem, hread, hbad]
  · intro hok hfin
    subst hfin
    simp only [PostConnectHandler.handle]
    simp at hmem
    simp [handleH3Events, hevs, hmem, hread, hok]

theorem post_handler_prints_whole_buffer_witness :
    PostConnectHandler.handle (fixH3 [Http3Event.dataReadable 3]
        (some ([255], true))) ⟨[3]⟩ 0 = none := by
  exact (post_handler_prints_whole_buffer
    (fixH3 [Http3Event.dataReadable 3] (some ([255], true))) ⟨[3]⟩ 0 3 [] 1
    [255] true rfl rfl rfl).2.1 (by decide)

theorem handleOldEvents_no_readable {σ : Type} (F : TFacade σ)
    (streams : List Nat) (evs : List ConnectionEvent) (s : σ)
    (hnr : ∀ sid, ConnectionEvent.recvStreamReadable sid ∉ evs) :
    handleOldEvents F streams evs s = some (s, true, evs.map rawEventPrint) := by
  induction evs with
  | nil => rfl
  | cons e rest ih =>
    have hrest : ∀ sid, ConnectionEvent.recvStreamReadable sid ∉ rest :=
      fun sid hmem => hnr sid (List.mem_cons_of_mem _ hmem)
    cases e with
    | recvStreamReadable sid =>
      exact absurd (List.mem_cons_self _ _) (hnr sid)
    | sendStreamWritable sid =>
      simp [handleOldEvents, ih hrest, rawEventPrint]
    | other tag =>
      simp [handleOldEvents, ih hrest, rawEventPrint]

/-- C8: In raw mode, if the drained event queue contains no
`RecvStreamReadable` event, the post-connect handler returns continue: a
`SendStreamWritable` event is printed informationally and any other event
is printed as unexpected, and neither aborts the phase. -/
theorem old_handler_continues_without_readable {σ : Type} (F : TFacade σ)
    (h : PostConnectHandlerOld) (s : σ)
    (hnr : ∀ sid, ConnectionEvent.recvStreamReadable sid ∉ (F.events s).2) :
    PostConnectHandlerOld.handle F h s =
      some (h, (F.events s).1, true, (F.events s).2.map rawEventPrint) := by
  simp only [PostConnectHandlerOld.handle]
  rw [handleOldEvents_no_readable F h.streams (F.events s).2 (F.events s).1 hnr]

theorem old_handler_continues_without_readable_witness :
    PostConnectHandlerOld.handle
        (fixOld [ConnectionEvent.sendStreamWritable 1, ConnectionEvent.other 5])
        ⟨[]⟩ 0 =
      some (⟨[]⟩, 0, true, [.printWritable 1, .printUnexpectedEvent 5]) := by
  exact old_handler_continues_without_readable
    (fixOld [ConnectionEvent.sendStreamWritable 1, ConnectionEvent.other 5])
    ⟨[]⟩ 0 (by intro sid hmem; simp [fixOld] at hmem)

theorem processLoop_preserves_handler {σ η : Type} (F : PumpFacade σ)
    (handle : HandlerFun σ η) (recvs : Nat → RecvOutcome) (la ra : Nat)
    (hpres : ∀ hh ss r, handle hh ss = some r → r.1 = hh)
    (fuel : Nat) (s : σ) (h : η) (inD : List Datagram) (k : Nat)
    (st : ConnState) (s' : σ) (h' : η) (tr : List PumpAction)
    (heq : processLoop F handle recvs la ra fuel s h inD k =
      (.returned st s' h', tr)) :
    h' = h := by
  induction fuel generalizing s h inD k st s' h' tr with
  | zero =>
    rw [processLoop] at heq
    simp at heq
  | succ n ih =>
    simp only [processLoop] at heq
    cases hcl : (F.fstate (F.processInput s inD)).isClosed with
    | true =>
      rw [hcl] at heq
      simp only [if_true, Prod.mk.injEq, PumpResult.returned.injEq] at heq
      exact heq.1.2.2.symm
    | false =>
      rw [hcl] at heq
      simp only [Bool.false_eq_true, if_false] at heq
      rcases hh : handle h (F.processInput s inD) with _ | ⟨h2, s2, cont, prints⟩ <;>
        rw [hh] at heq
      · simp at heq
      · have hh2 : h2 = h := hpres h (F.processInput s inD) _ hh
        subst hh2
        cases cont with
        | false =>
          simp only [if_true, Prod.mk.injEq, PumpResult.returned.injEq] at heq
          exact heq.1.2.2.symm
        | true =>
          simp only [Bool.true_eq_false, if_false] at heq
          rcases hr : recvs k with _ | bytes <;> rw [hr] at heq
          · simp at heq
          · simp only [Prod.mk.injEq] at heq
            obtain ⟨h1, -⟩ := heq
            have hcall : processLoop F handle recvs la ra n
                ((F.processOutput s2).1) h2 (nextBatch la ra bytes).1 (k + 1) =
                (.returned st s' h',
                  (processLoop F handle recvs la ra n ((F.processOutput s2).1) h2
                    (nextBatch la ra bytes).1 (k + 1)).2) := by
              rw [← h1]
            exact ih _ h2 _ (k + 1) st s' h' _ hcall

theorem clientRun_trace_shape {σ : Type} (mk : String → List String → Option σ)
    (F : H3Facade σ) (recvs : Nat → RecvOutcome) (la ra fuel : Nat)
    (args : ClientArgs) :
    (clientRun mk F recvs la ra fuel args).2 =
      [DriveAction.connect args.urlHost args.alpn] ∨
    (∃ st, (clientRun mk F recvs la ra fuel args).2 =
      [.connect args.urlHost args.alpn, .preLoopReturned st,
        .fetchCall args.method args.urlScheme args.urlHost args.urlPath
          args.headers]) ∨
    (∃ st sid, (clientRun mk F recvs la ra fuel args).2 =
      [.connect args.urlHost args.alpn, .preLoopReturned st,
        .fetchCall args.method args.urlScheme args.urlHost args.urlPath
          args.headers, .postLoopRun [sid]]) := by
  simp only [clientRun]
  split
  · exact Or.inl rfl
  · split
    · exact Or.inl rfl
    · exact Or.inl rfl
    · exact Or.inl rfl
    · next st s1 hu hpre =>
      split
      · exact Or.inr (Or.inl ⟨st, rfl⟩)
      · next s2 sid hf =>
        refine Or.inr (Or.inr ⟨st, sid, ?_⟩)
        simp [PostConnectHandler.default]

/-- C7: The Interest Set starts empty (`default`), the post-connect
handler never modifies it (within one call and across a whole pump run),
and whenever the driving sequence runs the post-connect pump the set holds
exactly the one stream identifier returned by `fetch` — so it never holds
more than one identifier and never shrinks. -/
theorem interest_set_at_most_one :
    PostConnectHandler.default.streams = [] ∧
    (∀ (σ : Type) (F : H3Facade σ) (h : PostConnectHandler) (s : σ) r,
      PostConnectHandler.handle F h s = some r → r.1.streams = h.streams) ∧
    (∀ (σ : Type) (F : H3Facade σ) (recvs : Nat → RecvOutcome)
      (la ra fuel : Nat) (s : σ) (h : PostConnectHandler)
      (inD : List Datagram) (k : Nat) st s' h' tr,
      processLoop F.toPumpFacade (PostConnectHandler.handle F) recvs la ra
        fuel s h inD k = (.returned st s' h', tr) →
      h'.streams = h.streams) ∧
    (∀ (σ : Type) (mk : String → List String → Option σ) (F : H3Facade σ)
      (recvs : Nat → RecvOutcome) (la ra fuel : Nat) (args : ClientArgs)
      (interest : List Nat),
      DriveAction.postLoopRun interest ∈ (clientRun mk F recvs la ra fuel args).2 →
      ∃ sid, interest = [sid]) := by
  have hpres : ∀ (σ : Type) (F : H3Facade σ) (h : PostConnectHandler) (s : σ) r,
      PostConnectHandler.handle F h s = some r → r.1 = h := by
    intro σ F h s r heq
    simp only [PostConnectHandler.handle] at heq
    rcases hres : handleH3Events F h.streams (F.events (F.processHttp3 s)).2
        (F.events (F.processHttp3 s)).1 with _ | ⟨s', c, acts⟩ <;>
      rw [hres] at heq
    · simp at heq
    · have := Option.some.inj heq
      rw [← this]
  refine ⟨rfl, ?_, ?_, ?_⟩
  · intro σ F h s r heq
    rw [hpres σ F h s r heq]
  · intro σ F recvs la ra fuel s h inD k st s' h' tr heq
    have := processLoop_preserves_handler F.toPumpFacade
      (PostConnectHandler.handle F) recvs la ra (hpres σ F) fuel s h inD k
      st s' h' tr heq
    rw [this]
  · intro σ mk F recvs la ra fuel args interest hmem
    rcases clientRun_trace_shape mk F recvs la ra fuel args with
      htr | ⟨st, htr⟩ | ⟨st, sid, htr⟩ <;> rw [htr] at hmem <;> simp at hmem
    exact ⟨sid, hmem⟩

theorem interest_set_at_most_one_witness :
    ∃ sid, ([0] : List Nat) = [sid] := by
  exact interest_set_at_most_one.2.2.2 Nat fixMk closedH3 fixRecvs 0 0 1
    fixArgs [0] (by decide)

/-- C10: In raw mode the connection facade is always constructed with the
single protocol label list `[http09]`, whatever `args.alpn` holds, while
the framed mode passes `args.alpn` through: the first action of every
driving-sequence trace is the corresponding `connect`. -/
theorem raw_mode_alpn_fixed {σ τ : Type} (mkO : String → List String → Option σ)
    (FO : TFacade σ) (recvsO : Nat → RecvOutcome) (laO raO fuelO : Nat)
    (mk : String → List String → Option τ) (F : H3Facade τ)
    (recvs : Nat → RecvOutcome) (la ra fuel : Nat) (args : ClientArgs) :
    (oldClientRun mkO FO recvsO laO raO fuelO args).2.head? =
      some (.connect args.urlHost [http09]) ∧
    (clientRun mk F recvs la ra fuel args).2.head? =
      some (.connect args.urlHost args.alpn) := by
  refine ⟨?_, ?_⟩
  · simp only [oldClientRun]
    repeat' split
    all_goals rfl
  · simp only [clientRun]
    repeat' split
    all_goals rfl

/-- C1 is false on the code: with a facade whose handshake fails at once
(state `Closed(0)` throughout) and whose `fetch` still hands out a stream
identifier, the driving sequence's pre-connect pump ends because of
`Closed` — yet the trace shows the fetch call being issued and the
post-connect pump being run afterwards. -/
theorem session_continues_after_closed_handshake_cex :
    (clientRun fixMk closedH3 fixRecvs 0 0 1 fixArgs).2 =
      [.connect fixArgs.urlHost fixArgs.alpn,
        .preLoopReturned (.closed 0),
        .fetchCall fixArgs.method fixArgs.urlScheme fixArgs.urlHost
          fixArgs.urlPath fixArgs.headers,
        .postLoopRun [0]] ∧
    DriveAction.preLoopReturned (.closed 0) ∈
      (clientRun fixMk closedH3 fixRecvs 0 0 1 fixArgs).2 ∧
    DriveAction.fetchCall fixArgs.method fixArgs.urlScheme fixArgs.urlHost
        fixArgs.urlPath fixArgs.headers ∈
      (clientRun fixMk closedH3 fixRecvs 0 0 1 fixArgs).2 ∧
    DriveAction.postLoopRun [0] ∈
      (clientRun fixMk closedH3 fixRecvs 0 0 1 fixArgs).2 := by
  refine ⟨rfl, ?_, ?_, ?_⟩ <;> decide

/-- C1 (amended): the driving sequence never inspects why the pre-connect
pump returned.  Whenever that pump returns — with `Connected` after the
handler's stop, or with `Closed` after a handshake failure — the fetch
call is issued unconditionally; only if the facade's `fetch` then fails
does the process panic, so that no stream exists and the post-connect pump
is never run, and if `fetch` succeeds the post-connect pump runs as
usual. -/
theorem fetch_always_issued_after_pre_loop {σ : Type}
    (mk : String → List String → Option σ) (F : H3Facade σ)
    (recvs : Nat → RecvOutcome) (la ra fuel : Nat) (args : ClientArgs)
    (s0 : σ) (st : ConnState) (s1 : σ) (u : Unit)
    (hmk : mk args.urlHost args.alpn = some s0)
    (hpre : (processLoop F.toPumpFacade (preConnectHandle F.toPumpFacade)
      recvs la ra fuel s0 () [] 0).1 = .returned st s1 u) :
    (DriveAction.fetchCall args.method args.urlScheme args.urlHost
        args.urlPath args.headers ∈ (clientRun mk F recvs la ra fuel args).2) ∧
    (F.fetch s1 args.method args.urlScheme args.urlHost args.urlPath
        args.headers = none →
      (clientRun mk F recvs la ra fuel args).1 = .panicked ∧
      ∀ interest, DriveAction.postLoopRun interest ∉
        (clientRun mk F recvs la ra fuel args).2) ∧
    (∀ s2 sid, F.fetch s1 args.method args.urlScheme args.urlHost
        args.urlPath args.headers = some (s2, sid) →
      (clientRun mk F recvs la ra fuel args).2 =
        [.connect args.urlHost args.alpn, .preLoopReturned st,
          .fetchCall args.method args.urlScheme args.urlHost args.urlPath
            args.headers, .postLoopRun [sid]] ∧
      (clientRun mk F recvs la ra fuel args).1 =
        (processLoop F.toPumpFacade (PostConnectHandler.handle F) recvs la ra
          fuel s2 ⟨[sid]⟩ [] 0).1.toDrive) := by
  simp only [clientRun]
  split
  · next heqn =>
    rw [hmk] at heqn
    exact absurd heqn (by simp)
  · next s0' heqmk =>
    rw [hmk] at heqmk
    obtain rfl : s0 = s0' := Option.some.inj heqmk
    split
    · next c heqp =>
      rw [hpre] at heqp
      simp at heqp
    · next heqp =>
      rw [hpre] at heqp
      simp at heqp
    · next heqp =>
      rw [hpre] at heqp
      simp at heqp
    · next st' s1' u' heqp =>
      rw [hpre] at heqp
      obtain ⟨rfl, rfl, rfl⟩ : st = st' ∧ s1 = s1' ∧ u = u' := by
        injection heqp with h1 h2 h3
        exact ⟨h1, h2, h3⟩
      refine ⟨?_, ?_, ?_⟩
      · rcases hf : F.fetch s1 args.method args.urlScheme args.urlHost
            args.urlPath args.headers with _ | ⟨s2, sid⟩ <;> simp
      · intro hf
        rw [hf]
        exact ⟨rfl, fun interest => by simp⟩
      · intro s2 sid hf
        rw [hf]
        constructor
        · simp [PostConnectHandler.default]
        · simp [PostConnectHandler.default]

theorem fetch_always_issued_after_pre_loop_witness :
    DriveAction.fetchCall fixArgs.method fixArgs.urlScheme fixArgs.urlHost
        fixArgs.urlPath fixArgs.headers ∈
      (clientRun fixMk closedH3 fixRecvs 0 0 1 fixArgs).2 := by
  exact (fetch_always_issued_after_pre_loop fixMk closedH3 fixRecvs 0 0 1
    fixArgs 0 (.closed 0) 0 () rfl rfl).1

end NeqoClient
